import Mathlib

/-!
Shallow embedding of `transmake.c` (Jimita/transmake), a generator of
palette-indexed translucency lookup tables, together with theorems checking
the natural-language specification of the program against the code.

Machine integers are modelled as `ℕ` (the C channels are `unsigned char`,
always in `[0,255]` at the call sites) with explicit `ℤ` where the C code
performs signed arithmetic.  The few floating-point computations of the C
source are exactly representable in binary32 on the byte-range inputs the
program feeds them, except for the alpha-amount computation in
`T_BlendTrans`, whose two binary32 roundings are modelled bit-exactly
(`rne`, `mantShift`, `T_BlendTrans_blendamt` below).
-/

/-- Embedding of the C union `RGBA_t` (transmake.c lines 37-47): four
8-bit channels red, green, blue, alpha. -/
structure RGBA where
  red : ℕ
  green : ℕ
  blue : ℕ
  alpha : ℕ
deriving DecidableEq

/-- Embedding of `enum alphastyle_e` (transmake.c line 49). -/
inductive alphastyle_e where
  | AST_TRANSLUCENT
  | AST_ADD
  | AST_SUBTRACT
  | AST_REVERSESUBTRACT
  | AST_MODULATE
deriving DecidableEq

open alphastyle_e

/-- Embedding of the palette-building loop of `Pal_Read` (transmake.c lines
109-116): entry `i` takes its red, green, blue channels from the three raw
bytes at offsets `3*i`, `3*i+1`, `3*i+2`, and alpha is always set to 255. -/
def Pal_Read (rpalette : ℕ → ℕ) : ℕ → RGBA := fun i =>
  { red := rpalette (3 * i)
    green := rpalette (3 * i + 1)
    blue := rpalette (3 * i + 2)
    alpha := 255 }

/-- Squared Euclidean RGB distance of `(r,g,b)` to palette entry `i`,
exactly the computation of transmake.c lines 132-135 (`dr*dr + dg*dg +
db*db` over C `int`, modelled as `ℤ`). -/
def distortion (palette : ℕ → RGBA) (r g b i : ℕ) : ℤ :=
  ((r : ℤ) - ((palette i).red : ℤ)) * ((r : ℤ) - ((palette i).red : ℤ)) +
  ((g : ℤ) - ((palette i).green : ℤ)) * ((g : ℤ) - ((palette i).green : ℤ)) +
  ((b : ℤ) - ((palette i).blue : ℤ)) * ((b : ℤ) - ((palette i).blue : ℤ))

/-- Embedding of the scan loop of `NearestPaletteColor` (transmake.c lines
130-144).  The C `for (i = 0; i < 256; i++)` loop is written with an
explicit countdown `fuel` (the number of remaining iterations, so that the
initial call uses `fuel = 256`, `i = 0`); `bestdistortion` and `bestcolor`
are the loop-carried locals of the source.  The body is literally lines
132-143: compute the distortion of entry `i`; on a strict improvement
return `i` immediately if the distortion is zero, otherwise record the new
running minimum; after the last iteration return `bestcolor`. -/
def NearestPaletteColor_loop (palette : ℕ → RGBA) (r g b : ℕ) :
    ℕ → ℕ → ℤ → ℕ → ℕ
  | 0, _, _, bestcolor => bestcolor
  | fuel + 1, i, bestdistortion, bestcolor =>
    if distortion palette r g b i < bestdistortion then
      if distortion palette r g b i = 0 then i
      else NearestPaletteColor_loop palette r g b fuel (i + 1)
        (distortion palette r g b i) i
    else NearestPaletteColor_loop palette r g b fuel (i + 1)
      bestdistortion bestcolor

/-- Embedding of `NearestPaletteColor` (transmake.c lines 125-147):
scan all 256 palette entries starting from `bestdistortion = 256*256*4`,
`bestcolor = 0`. -/
def NearestPaletteColor (palette : ℕ → RGBA) (r g b : ℕ) : ℕ :=
  NearestPaletteColor_loop palette r g b 256 0 (256 * 256 * 4) 0

/-- Embedding of the C macro `clamp` (transmake.c line 179),
`max(min(c, 0xFF), 0x00)` over C `int`, with the final store into an
`unsigned char` field of a value already in `[0,255]`. -/
def clamp (c : ℤ) : ℕ := (max (min c 255) 0).toNat

/-- Embedding of `ASTBlendPixel` (transmake.c lines 149-219).

Translucent branch (lines 153-178): `fullalpha` is the C `signed short`
`alpha - (0xFF - foreground.s.alpha)`, modelled in `ℤ`.  When the
background alpha is zero the source sets only the output alpha byte and
returns the union with the red, green, blue bytes uninitialized; the
embedding fixes them to 0 (no claim constrains them).

Non-translucent branches (lines 180-216): the C code computes
`falpha = alpha/256.0f`, `f_ch = foreground_ch * falpha` in binary32 and
truncates the blended value to `int` before clamping.  For byte-range
channels every intermediate binary32 value is exact
(`foreground_ch * alpha ≤ 255*255 < 2^24`, and sums/differences with a
byte are multiples of `2^-8` of magnitude `< 2^9`), so
`(int)(bg + f_ch) = (bg*256 + fg*alpha)/256` (nonnegative, natural
division), `(int)(bg - f_ch)` and `(int)(-bg + f_ch)` are the
truncated-toward-zero divisions `Int.tdiv (bg*256 - fg*alpha) 256` and
`Int.tdiv (fg*alpha - bg*256) 256`, and for `AST_MODULATE` (lines 204-212,
which recomputes `f_ch = foreground_ch / 256.0f` and ignores `alpha`)
`(int)(bg * f_ch) = (bg*fg)/256` (natural division). -/
def ASTBlendPixel (background foreground : RGBA) (style : alphastyle_e)
    (alpha : ℕ) : RGBA :=
  let fullalpha : ℤ := (alpha : ℤ) - (255 - (foreground.alpha : ℤ))
  match style with
  | AST_TRANSLUCENT =>
    if fullalpha ≤ 0 then
      background
    else
      -- don't go too high (line 160-161)
      let fa : ℤ := if 255 ≤ fullalpha then 255 else fullalpha
      if background.alpha = 0 then
        -- line 166-167: only the alpha byte is written in the source
        { red := 0, green := 0, blue := 0, alpha := 0 }
      else
        let a := fa.toNat
        let beta := 255 - a
        { red := (background.red * beta + foreground.red * a) / 255
          green := (background.green * beta + foreground.green * a) / 255
          blue := (background.blue * beta + foreground.blue * a) / 255
          alpha := 255 }
  | AST_ADD =>
    { red := clamp (((background.red * 256 + foreground.red * alpha) / 256 : ℕ))
      green := clamp (((background.green * 256 + foreground.green * alpha) / 256 : ℕ))
      blue := clamp (((background.blue * 256 + foreground.blue * alpha) / 256 : ℕ))
      alpha := 255 }
  | AST_SUBTRACT =>
    { red := clamp (Int.tdiv ((background.red : ℤ) * 256 - (foreground.red : ℤ) * alpha) 256)
      green := clamp (Int.tdiv ((background.green : ℤ) * 256 - (foreground.green : ℤ) * alpha) 256)
      blue := clamp (Int.tdiv ((background.blue : ℤ) * 256 - (foreground.blue : ℤ) * alpha) 256)
      alpha := 255 }
  | AST_REVERSESUBTRACT =>
    { red := clamp (Int.tdiv ((foreground.red : ℤ) * alpha - (background.red : ℤ) * 256) 256)
      green := clamp (Int.tdiv ((foreground.green : ℤ) * alpha - (background.green : ℤ) * 256) 256)
      blue := clamp (Int.tdiv ((foreground.blue : ℤ) * alpha - (background.blue : ℤ) * 256) 256)
      alpha := 255 }
  | AST_MODULATE =>
    { red := clamp (((background.red * foreground.red) / 256 : ℕ))
      green := clamp (((background.green * foreground.green) / 256 : ℕ))
      blue := clamp (((background.blue * foreground.blue) / 256 : ℕ))
      alpha := 255 }

/-- Round `n / 2^s` to the nearest integer, ties to even: the binary32
rounding of the low `s` dropped bits of a mantissa. -/
def rne (n s : ℕ) : ℕ :=
  let q := n / 2 ^ s
  let r := n % 2 ^ s
  if 2 ^ s < 2 * r then q + 1
  else if 2 * r < 2 ^ s then q
  else if q % 2 = 0 then q else q + 1

/-- Number of low bits a positive integer mantissa must drop to fit in the
24 significant bits of binary32 (0 when it already fits); bounded search,
sufficient for inputs below `2^88`. -/
def mantShiftAux : ℕ → ℕ → ℕ
  | 0, _ => 0
  | k + 1, n => if n < 2 ^ 24 then 0 else mantShiftAux k (n / 2) + 1

/-- Shift amount wrapper for `mantShiftAux` with fuel 64. -/
def mantShift (n : ℕ) : ℕ := mantShiftAux 64 n

/-- Embedding of the alpha-amount computation of `T_BlendTrans`
(transmake.c lines 224-225):
`float amtmul = (256.0f / 10.0f); unsigned char blendamt = (amtmul * trans);`
The compile-time constant `256.0f / 10.0f` rounds to the binary32 value
`13421773 * 2^-19` (the nearest representable to 25.6); `(float)trans` is
exact; the product `amtmul * trans = (13421773 * trans) * 2^-19` is rounded
to 24 significant bits with ties to even, and the `unsigned char` cast
truncates the (positive, in-range for `trans ≤ 9`) result toward zero. -/
def T_BlendTrans_blendamt (trans : ℕ) : ℕ :=
  let n := 13421773 * trans
  let s := mantShift n
  (rne n s * 2 ^ s) / 2 ^ 19

/-- Embedding of the table-filling loop of `T_BlendTrans` (transmake.c
lines 222-242): for each background index `y` (outer loop) and foreground
index `x` (inner loop), blend `palette[y]` under `palette[x]` with the
configured style and the alpha amount derived from `trans`, resolve the
result to the nearest palette index, and store it at flat offset
`y*256 + x`.  The row-major write order of the source makes the buffer the
concatenation of the 256 rows. -/
def T_BlendTrans (palette : ℕ → RGBA) (blendstyle : alphastyle_e)
    (trans : ℕ) : List ℕ :=
  (List.range 256).flatMap fun y =>
    (List.range 256).map fun x =>
      let result := ASTBlendPixel (palette y) (palette x) blendstyle
        (T_BlendTrans_blendamt trans)
      NearestPaletteColor palette result.red result.green result.blue

/-- Embedding of the `-outfiles` branch of `Parm_ParseParameter`
(transmake.c lines 391-396): the argument is stored only when its first
character is nonzero, i.e. only when it is a nonempty C string; otherwise
`parm_outfiles` keeps its current value. -/
def Parm_ParseOutfiles (parm_outfiles : Option String) (arg : String) :
    Option String :=
  if arg = "" then parm_outfiles else some arg

/-- Embedding of `defaultoutfiles` (transmake.c line 245). -/
def defaultoutfiles : String := "123456789"

/-- Embedding of the `outfiles` selection of `T_DoMain` (transmake.c line
252): the default is used exactly when no `-outfiles` value was stored. -/
def T_DoMain_outfiles (parm_outfiles : Option String) : String :=
  match parm_outfiles with
  | none => defaultoutfiles
  | some s => s

/-- Embedding of the `canblend` computation of `T_DoMain` (transmake.c
lines 265-271): slot `k` (0-based) is marked exactly when some character
`c` of `outfiles` is a decimal digit with `c - '0' - 1 = k`.  The
difference is taken in `ℤ` as in C `int` arithmetic (for the digit `'0'`
the C code writes out of bounds at `canblend[-1]`, which no slot `k : ℕ`
matches). -/
def T_DoMain_canblend (outfiles : String) (k : ℕ) : Bool :=
  outfiles.toList.any fun c =>
    c.isDigit && ((c.toNat : ℤ) - 48 - 1 = (k : ℤ))

/-- Observable actions of the blend-and-write loop of `T_DoMain`
(transmake.c lines 273-289), plus the error-reporting actions the program
uses elsewhere (`T_OutputError` / `exit(EXIT_FAILURE)`, as in `Pal_Read`),
so that their absence from the loop can be stated. -/
inductive Event where
  | message (s : String)
  | openOut (filename : String) (ok : Bool)
  | blend (level : ℕ)
  | write (ok : Bool) (bytes : ℕ)
  | closeF
  | error (s : String)
  | exitFailure
deriving DecidableEq

/-- Recognizer for the two error-reporting actions. -/
def Event.isFailureReport : Event → Bool
  | .error _ => true
  | .exitFailure => true
  | _ => false

/-- Embedding of the output loop of `T_DoMain` (transmake.c lines
273-289) as the list of its observable actions, parametrized by which
filenames the file system lets `fopen(..., "wb")` succeed on.  For each
level `i` from 1 to 9 whose `canblend[i-1]` flag is set, the source
prints the message, opens the file, blends, writes 65536 bytes to the
returned stream, and closes it; the result of `fopen` is never examined
(a `NULL` stream is passed straight to `fwrite`), and no iteration emits
an error or terminates the program. -/
def T_DoMain_events (openable : String → Bool) (outpfx : String)
    (outfiles : String) : List Event :=
  (List.range 9).flatMap fun i0 =>
    let i := i0 + 1
    if T_DoMain_canblend outfiles (i - 1) then
      let filename := outpfx ++ toString i ++ "0.lmp"
      [Event.message ("Writing " ++ filename ++ "..."),
       Event.openOut filename (openable filename),
       Event.blend i,
       Event.write (openable filename) 65536,
       Event.closeF]
    else []

/-- Helper: the C clamp applied to a value that is already a natural
number caps it at 255. -/
theorem clamp_natCast (n : ℕ) : clamp (n : ℤ) = min n 255 := by
  simp only [clamp]
  omega

/-- C7: for every background and foreground color and every alpha byte,
compositing with any of the four styles Add, Subtract, ReverseSubtract,
Modulate produces output alpha exactly 255. -/
theorem ASTBlendPixel_opaque_alpha_spec (background foreground : RGBA)
    (alpha : ℕ) :
    (ASTBlendPixel background foreground AST_ADD alpha).alpha = 255 ∧
    (ASTBlendPixel background foreground AST_SUBTRACT alpha).alpha = 255 ∧
    (ASTBlendPixel background foreground AST_REVERSESUBTRACT alpha).alpha = 255 ∧
    (ASTBlendPixel background foreground AST_MODULATE alpha).alpha = 255 :=
  ⟨rfl, rfl, rfl, rfl⟩

/-- C6: compositing with style Modulate ignores the alpha byte entirely —
two calls with the same colors but different alpha bytes agree — and each
output channel is the clamped truncation of
`background_channel * (foreground_channel / 256)`, with output alpha
255. -/
theorem ASTBlendPixel_modulate_spec (background foreground : RGBA)
    (a1 a2 : ℕ) :
    ASTBlendPixel background foreground AST_MODULATE a1 =
      ASTBlendPixel background foreground AST_MODULATE a2 ∧
    ASTBlendPixel background foreground AST_MODULATE a1 =
      { red := min (background.red * foreground.red / 256) 255
        green := min (background.green * foreground.green / 256) 255
        blue := min (background.blue * foreground.blue / 256) 255
        alpha := 255 } := by
  constructor
  · rfl
  · simp only [ASTBlendPixel, clamp_natCast]

/-- C5: when the effective alpha `alpha - (255 - foreground.alpha)` is at
most zero, Translucent compositing returns exactly the background color,
all four channels included; in particular with alpha byte 0 and a byte
foreground alpha the background is returned unchanged. -/
theorem ASTBlendPixel_translucent_noop_spec (background foreground : RGBA)
    (alpha : ℕ)
    (hle : (alpha : ℤ) - (255 - (foreground.alpha : ℤ)) ≤ 0) :
    ASTBlendPixel background foreground AST_TRANSLUCENT alpha = background ∧
    (foreground.alpha ≤ 255 →
      ASTBlendPixel background foreground AST_TRANSLUCENT 0 = background) := by
  constructor
  · simp only [ASTBlendPixel]
    rw [if_pos hle]
  · intro h
    simp only [ASTBlendPixel]
    rw [if_pos (by push_cast; omega)]

/-- Closed instantiation of `ASTBlendPixel_translucent_noop_spec`. -/
theorem ASTBlendPixel_translucent_noop_spec_witness :
    ((0 : ℤ) - (255 - ((255 : ℕ) : ℤ)) ≤ 0) ∧
    (ASTBlendPixel ⟨10, 20, 30, 255⟩ ⟨40, 50, 60, 255⟩ AST_TRANSLUCENT 0 =
        ⟨10, 20, 30, 255⟩ ∧
      ((255 : ℕ) ≤ 255 →
        ASTBlendPixel ⟨10, 20, 30, 255⟩ ⟨40, 50, 60, 255⟩ AST_TRANSLUCENT 0 =
          ⟨10, 20, 30, 255⟩)) :=
  ⟨by decide,
   ASTBlendPixel_translucent_noop_spec ⟨10, 20, 30, 255⟩ ⟨40, 50, 60, 255⟩ 0
     (by decide)⟩

/-- C4 counterexample: the claim maps alpha level 1 to
`round(25.6) = 26`, but the code truncates the binary32 product
`(256.0f/10.0f) * 1` to the byte 25. -/
theorem T_BlendTrans_blendamt_level1_cex :
    T_BlendTrans_blendamt 1 = 25 ∧ T_BlendTrans_blendamt 1 ≠ 26 := by
  decide

/-- C4 amended: for every alpha level in `[1,9]` the alpha byte equals the
truncation of `level * 25.6`, i.e. `level * 256 / 10` in integer division;
in particular level 1 maps to 25 and level 9 maps to 230. -/
theorem T_BlendTrans_blendamt_truncates (trans : ℕ) (h1 : 1 ≤ trans)
    (h9 : trans ≤ 9) :
    T_BlendTrans_blendamt trans = trans * 256 / 10 := by
  interval_cases trans <;> decide

/-- Closed instantiation of `T_BlendTrans_blendamt_truncates`. -/
theorem T_BlendTrans_blendamt_truncates_witness :
    (1 ≤ 9 ∧ (9 : ℕ) ≤ 9) ∧ T_BlendTrans_blendamt 9 = 9 * 256 / 10 :=
  ⟨by decide, T_BlendTrans_blendamt_truncates 9 (by decide) (by decide)⟩

/-- C10: an empty `-outfiles` argument is not stored, so the default
"123456789" is used, exactly as when the option is omitted, and every one
of the nine `canblend` slots is set. -/
theorem Parm_outfiles_empty_default :
    Parm_ParseOutfiles none "" = none ∧
    T_DoMain_outfiles (Parm_ParseOutfiles none "") = defaultoutfiles ∧
    T_DoMain_outfiles (Parm_ParseOutfiles none "") = T_DoMain_outfiles none ∧
    ((List.range 9).all fun k =>
      T_DoMain_canblend (T_DoMain_outfiles (Parm_ParseOutfiles none "")) k) =
      true := by
  decide

/-- C8 divergence witness: when no output file can be opened, the driver
loop of `T_DoMain` still emits no error and no failure exit, and still
proceeds through every requested level — it opens (unsuccessfully),
blends and writes all nine tables, including the last one. -/
theorem T_DoMain_ignores_open_failure :
    (T_DoMain_events (fun _ => false) "TRANS" defaultoutfiles).countP
        Event.isFailureReport = 0 ∧
    Event.openOut "TRANS10.lmp" false ∈
      T_DoMain_events (fun _ => false) "TRANS" defaultoutfiles ∧
    Event.write false 65536 ∈
      T_DoMain_events (fun _ => false) "TRANS" defaultoutfiles ∧
    Event.openOut "TRANS90.lmp" false ∈
      T_DoMain_events (fun _ => false) "TRANS" defaultoutfiles ∧
    Event.blend 9 ∈
      T_DoMain_events (fun _ => false) "TRANS" defaultoutfiles := by
  decide

/-- C2: with style Translucent, a strictly positive effective alpha and a
nonzero background alpha, the effective alpha is capped at 255, each
channel is `(background_channel * (255 - effective) + foreground_channel
* effective) / 255` with truncating division, and output alpha is 255;
with a zero background alpha the output alpha is 0. -/
theorem ASTBlendPixel_translucent_blend_spec (background foreground : RGBA)
    (alpha : ℕ)
    (hpos : 0 < (alpha : ℤ) - (255 - (foreground.alpha : ℤ))) :
    (background.alpha ≠ 0 →
      ASTBlendPixel background foreground AST_TRANSLUCENT alpha =
        { red := (background.red *
              (255 - (min ((alpha : ℤ) - (255 - (foreground.alpha : ℤ))) 255).toNat) +
            foreground.red *
              (min ((alpha : ℤ) - (255 - (foreground.alpha : ℤ))) 255).toNat) / 255
          green := (background.green *
              (255 - (min ((alpha : ℤ) - (255 - (foreground.alpha : ℤ))) 255).toNat) +
            foreground.green *
              (min ((alpha : ℤ) - (255 - (foreground.alpha : ℤ))) 255).toNat) / 255
          blue := (background.blue *
              (255 - (min ((alpha : ℤ) - (255 - (foreground.alpha : ℤ))) 255).toNat) +
            foreground.blue *
              (min ((alpha : ℤ) - (255 - (foreground.alpha : ℤ))) 255).toNat) / 255
          alpha := 255 }) ∧
    (background.alpha = 0 →
      (ASTBlendPixel background foreground AST_TRANSLUCENT alpha).alpha = 0) := by
  have hmin : (if 255 ≤ (alpha : ℤ) - (255 - (foreground.alpha : ℤ)) then (255 : ℤ)
      else (alpha : ℤ) - (255 - (foreground.alpha : ℤ))) =
      min ((alpha : ℤ) - (255 - (foreground.alpha : ℤ))) 255 := by
    split <;> omega
  constructor
  · intro hbg
    simp only [ASTBlendPixel]
    rw [if_neg (not_le.mpr hpos), if_neg hbg, hmin]
  · intro hbg
    simp only [ASTBlendPixel]
    rw [if_neg (not_le.mpr hpos), if_pos hbg]

/-- Closed instantiation of `ASTBlendPixel_translucent_blend_spec`. -/
theorem ASTBlendPixel_translucent_blend_spec_witness :
    (0 < ((128 : ℕ) : ℤ) - (255 - (((⟨40, 50, 60, 255⟩ : RGBA)).alpha : ℤ))) ∧
    (((⟨10, 20, 30, 255⟩ : RGBA)).alpha ≠ 0 →
      ASTBlendPixel ⟨10, 20, 30, 255⟩ ⟨40, 50, 60, 255⟩ AST_TRANSLUCENT 128 =
        { red := (((⟨10, 20, 30, 255⟩ : RGBA)).red *
              (255 - (min (((128 : ℕ) : ℤ) -
                (255 - (((⟨40, 50, 60, 255⟩ : RGBA)).alpha : ℤ))) 255).toNat) +
            ((⟨40, 50, 60, 255⟩ : RGBA)).red *
              (min (((128 : ℕ) : ℤ) -
                (255 - (((⟨40, 50, 60, 255⟩ : RGBA)).alpha : ℤ))) 255).toNat) / 255
          green := (((⟨10, 20, 30, 255⟩ : RGBA)).green *
              (255 - (min (((128 : ℕ) : ℤ) -
                (255 - (((⟨40, 50, 60, 255⟩ : RGBA)).alpha : ℤ))) 255).toNat) +
            ((⟨40, 50, 60, 255⟩ : RGBA)).green *
              (min (((128 : ℕ) : ℤ) -
                (255 - (((⟨40, 50, 60, 255⟩ : RGBA)).alpha : ℤ))) 255).toNat) / 255
          blue := (((⟨10, 20, 30, 255⟩ : RGBA)).blue *
              (255 - (min (((128 : ℕ) : ℤ) -
                (255 - (((⟨40, 50, 60, 255⟩ : RGBA)).alpha : ℤ))) 255).toNat) +
            ((⟨40, 50, 60, 255⟩ : RGBA)).blue *
              (min (((128 : ℕ) : ℤ) -
                (255 - (((⟨40, 50, 60, 255⟩ : RGBA)).alpha : ℤ))) 255).toNat) / 255
          alpha := 255 }) ∧
    (((⟨10, 20, 30, 255⟩ : RGBA)).alpha = 0 →
      (ASTBlendPixel ⟨10, 20, 30, 255⟩ ⟨40, 50, 60, 255⟩
        AST_TRANSLUCENT 128).alpha = 0) :=
  ⟨by decide,
   ASTBlendPixel_translucent_blend_spec ⟨10, 20, 30, 255⟩ ⟨40, 50, 60, 255⟩ 128
     (by decide)⟩

/-- Squared distances are nonnegative. -/
theorem distortion_nonneg (palette : ℕ → RGBA) (r g b i : ℕ) :
    0 ≤ distortion palette r g b i := by
  unfold distortion
  have h1 := mul_self_nonneg ((r : ℤ) - ((palette i).red : ℤ))
  have h2 := mul_self_nonneg ((g : ℤ) - ((palette i).green : ℤ))
  have h3 := mul_self_nonneg ((b : ℤ) - ((palette i).blue : ℤ))
  linarith

/-- A squared distance vanishes exactly on an exact channel match. -/
theorem distortion_eq_zero_iff (palette : ℕ → RGBA) (r g b i : ℕ) :
    distortion palette r g b i = 0 ↔
      ((palette i).red = r ∧ (palette i).green = g ∧ (palette i).blue = b) := by
  unfold distortion
  constructor
  · intro h
    have h1 := mul_self_nonneg ((r : ℤ) - ((palette i).red : ℤ))
    have h2 := mul_self_nonneg ((g : ℤ) - ((palette i).green : ℤ))
    have h3 := mul_self_nonneg ((b : ℤ) - ((palette i).blue : ℤ))
    have e1 : ((r : ℤ) - ((palette i).red : ℤ)) *
        ((r : ℤ) - ((palette i).red : ℤ)) = 0 := by linarith
    have e2 : ((g : ℤ) - ((palette i).green : ℤ)) *
        ((g : ℤ) - ((palette i).green : ℤ)) = 0 := by linarith
    have e3 : ((b : ℤ) - ((palette i).blue : ℤ)) *
        ((b : ℤ) - ((palette i).blue : ℤ)) = 0 := by linarith
    have z1 := mul_self_eq_zero.mp e1
    have z2 := mul_self_eq_zero.mp e2
    have z3 := mul_self_eq_zero.mp e3
    refine ⟨?_, ?_, ?_⟩ <;> omega
  · rintro ⟨h1, h2, h3⟩
    rw [h1, h2, h3]
    ring

/-- With byte-range inputs and palette channels, every squared distance is
bounded by `3 * 255 * 255`, strictly below the initial `256 * 256 * 4`. -/
theorem distortion_lt_init (palette : ℕ → RGBA) (r g b : ℕ)
    (hr : r ≤ 255) (hg : g ≤ 255) (hb : b ≤ 255) (i : ℕ)
    (hp : (palette i).red ≤ 255 ∧ (palette i).green ≤ 255 ∧
      (palette i).blue ≤ 255) :
    distortion palette r g b i < 256 * 256 * 4 := by
  obtain ⟨h1, h2, h3⟩ := hp
  unfold distortion
  have br : ((r : ℤ) - ((palette i).red : ℤ)) *
      ((r : ℤ) - ((palette i).red : ℤ)) ≤ 255 * 255 := by
    have l1 : ((r : ℤ) - ((palette i).red : ℤ)) ≤ 255 := by omega
    have l2 : -255 ≤ ((r : ℤ) - ((palette i).red : ℤ)) := by omega
    nlinarith
  have bg2 : ((g : ℤ) - ((palette i).green : ℤ)) *
      ((g : ℤ) - ((palette i).green : ℤ)) ≤ 255 * 255 := by
    have l1 : ((g : ℤ) - ((palette i).green : ℤ)) ≤ 255 := by omega
    have l2 : -255 ≤ ((g : ℤ) - ((palette i).green : ℤ)) := by omega
    nlinarith
  have bb : ((b : ℤ) - ((palette i).blue : ℤ)) *
      ((b : ℤ) - ((palette i).blue : ℤ)) ≤ 255 * 255 := by
    have l1 : ((b : ℤ) - ((palette i).blue : ℤ)) ≤ 255 := by omega
    have l2 : -255 ≤ ((b : ℤ) - ((palette i).blue : ℤ)) := by omega
    nlinarith
  linarith

/-- Invariant-based characterization of the scan loop: from a state in
which `best` is positive and bounds all distances already seen, and
`bestcolor` is either the untouched initial state or the first index
attaining `best`, the loop returns the least index of minimal distance. -/
theorem NearestPaletteColor_loop_spec (palette : ℕ → RGBA) (r g b : ℕ)
    (hd : ∀ j, j < 256 → distortion palette r g b j < 256 * 256 * 4) :
    ∀ fuel i best bc,
      i + fuel = 256 →
      0 < best →
      (∀ j, j < i → best ≤ distortion palette r g b j) →
      ((i = 0 ∧ best = 256 * 256 * 4) ∨
        (bc < i ∧ distortion palette r g b bc = best ∧
          ∀ j, j < bc → best < distortion palette r g b j)) →
      NearestPaletteColor_loop palette r g b fuel i best bc < 256 ∧
      (∀ j, j < 256 →
        distortion palette r g b
            (NearestPaletteColor_loop palette r g b fuel i best bc) ≤
          distortion palette r g b j) ∧
      (∀ j, j < NearestPaletteColor_loop palette r g b fuel i best bc →
        distortion palette r g b
            (NearestPaletteColor_loop palette r g b fuel i best bc) <
          distortion palette r g b j) := by
  intro fuel
  induction fuel with
  | zero =>
    intro i best bc hi hbest hseen hstate
    have hi256 : i = 256 := by omega
    subst hi256
    rcases hstate with ⟨h0, _⟩ | ⟨hbc, hbcd, hfirst⟩
    · omega
    · simp only [NearestPaletteColor_loop]
      refine ⟨hbc, ?_, ?_⟩
      · intro j hj
        rw [hbcd]
        exact hseen j hj
      · intro j hj
        rw [hbcd]
        exact hfirst j hj
  | succ fuel ih =>
    intro i best bc hi hbest hseen hstate
    have hilt : i < 256 := by omega
    simp only [NearestPaletteColor_loop]
    by_cases h1 : distortion palette r g b i < best
    · rw [if_pos h1]
      by_cases h2 : distortion palette r g b i = 0
      · rw [if_pos h2]
        refine ⟨hilt, ?_, ?_⟩
        · intro j hj
          rw [h2]
          exact distortion_nonneg palette r g b j
        · intro j hj
          rw [h2]
          exact lt_of_lt_of_le hbest (hseen j hj)
      · rw [if_neg h2]
        apply ih (i + 1) (distortion palette r g b i) i (by omega)
        · exact lt_of_le_of_ne (distortion_nonneg palette r g b i)
            (fun h => h2 h.symm)
        · intro j hj
          rcases Nat.lt_succ_iff_lt_or_eq.mp hj with hj' | hj'
          · exact le_of_lt (lt_of_lt_of_le h1 (hseen j hj'))
          · subst hj'
            exact le_rfl
        · right
          refine ⟨Nat.lt_succ_self i, rfl, ?_⟩
          intro j hj
          exact lt_of_lt_of_le h1 (hseen j hj)
    · rw [if_neg h1]
      apply ih (i + 1) best bc (by omega) hbest
      · intro j hj
        rcases Nat.lt_succ_iff_lt_or_eq.mp hj with hj' | hj'
        · exact hseen j hj'
        · subst hj'
          exact not_lt.mp h1
      · rcases hstate with ⟨h0, hb0⟩ | ⟨hbc, hbcd, hfirst⟩
        · exfalso
          subst h0 hb0
          exact h1 (hd 0 hilt)
        · exact Or.inr ⟨Nat.lt_succ_of_lt hbc, hbcd, hfirst⟩

/-- C3: with byte-range inputs and palette channels, the nearest-color
scan returns an index below 256 whose squared distance is minimal over the
whole palette, and among all indices attaining the minimum it returns the
lowest one (every strictly smaller index has strictly larger distance);
the distance-zero early exit is the special case of a zero minimum. -/
theorem NearestPaletteColor_least_spec (palette : ℕ → RGBA) (r g b : ℕ)
    (hr : r ≤ 255) (hg : g ≤ 255) (hb : b ≤ 255)
    (hp : ∀ i, i < 256 → (palette i).red ≤ 255 ∧ (palette i).green ≤ 255 ∧
      (palette i).blue ≤ 255) :
    NearestPaletteColor palette r g b < 256 ∧
    (∀ j, j < 256 →
      distortion palette r g b (NearestPaletteColor palette r g b) ≤
        distortion palette r g b j) ∧
    (∀ j, j < NearestPaletteColor palette r g b →
      distortion palette r g b (NearestPaletteColor palette r g b) <
        distortion palette r g b j) := by
  have hd : ∀ j, j < 256 → distortion palette r g b j < 256 * 256 * 4 :=
    fun j hj => distortion_lt_init palette r g b hr hg hb j (hp j hj)
  unfold NearestPaletteColor
  exact NearestPaletteColor_loop_spec palette r g b hd 256 0 (256 * 256 * 4) 0
    (by omega) (by omega) (fun j hj => absurd hj (Nat.not_lt_zero j))
    (Or.inl ⟨rfl, rfl⟩)

set_option maxRecDepth 8192 in
/-- Closed instantiation of `NearestPaletteColor_least_spec`. -/
theorem NearestPaletteColor_least_spec_witness :
    ((1 : ℕ) ≤ 255 ∧
      (∀ i, i < 256 →
        ((fun _ => (⟨0, 0, 0, 255⟩ : RGBA)) i).red ≤ 255 ∧
        ((fun _ => (⟨0, 0, 0, 255⟩ : RGBA)) i).green ≤ 255 ∧
        ((fun _ => (⟨0, 0, 0, 255⟩ : RGBA)) i).blue ≤ 255)) ∧
    (NearestPaletteColor (fun _ => ⟨0, 0, 0, 255⟩) 1 1 1 < 256 ∧
      (∀ j, j < 256 →
        distortion (fun _ => ⟨0, 0, 0, 255⟩) 1 1 1
            (NearestPaletteColor (fun _ => ⟨0, 0, 0, 255⟩) 1 1 1) ≤
          distortion (fun _ => ⟨0, 0, 0, 255⟩) 1 1 1 j) ∧
      (∀ j, j < NearestPaletteColor (fun _ => ⟨0, 0, 0, 255⟩) 1 1 1 →
        distortion (fun _ => ⟨0, 0, 0, 255⟩) 1 1 1
            (NearestPaletteColor (fun _ => ⟨0, 0, 0, 255⟩) 1 1 1) <
          distortion (fun _ => ⟨0, 0, 0, 255⟩) 1 1 1 j)) :=
  ⟨⟨by decide, by decide⟩,
   NearestPaletteColor_least_spec (fun _ => ⟨0, 0, 0, 255⟩) 1 1 1
     (by decide) (by decide) (by decide) (by decide)⟩

/-- When entry `i0` matches exactly and no earlier entry does, the scan
loop reaches `i0` and takes the distance-zero early exit there. -/
theorem NearestPaletteColor_loop_zero (palette : ℕ → RGBA) (r g b : ℕ)
    (i0 : ℕ) (hi0 : i0 < 256) (h0 : distortion palette r g b i0 = 0)
    (hprev : ∀ j, j < i0 → distortion palette r g b j ≠ 0) :
    ∀ fuel i best bc, i + fuel = 256 → i ≤ i0 → 0 < best →
      NearestPaletteColor_loop palette r g b fuel i best bc = i0 := by
  intro fuel
  induction fuel with
  | zero =>
    intro i best bc hi hle hbest
    omega
  | succ fuel ih =>
    intro i best bc hi hle hbest
    simp only [NearestPaletteColor_loop]
    by_cases hii : i = i0
    · subst hii
      have hlt : distortion palette r g b i < best := by
        rw [h0]; exact hbest
      rw [if_pos hlt, if_pos h0]
    · have hlt : i < i0 := lt_of_le_of_ne hle hii
      have hne := hprev i hlt
      by_cases h1 : distortion palette r g b i < best
      · rw [if_pos h1, if_neg hne]
        exact ih (i + 1) (distortion palette r g b i) i (by omega) (by omega)
          (lt_of_le_of_ne (distortion_nonneg palette r g b i)
            (fun h => hne h.symm))
      · rw [if_neg h1]
        exact ih (i + 1) best bc (by omega) (by omega) hbest

/-- C9: for a loaded palette and an index `i` that is the first occurrence
of its exact RGB color, the nearest-color lookup of that color returns
`i` (distance-zero early-exit path). -/
theorem Pal_Read_nearest_roundtrip (rpalette : ℕ → ℕ) (i : ℕ)
    (hi : i < 256)
    (hfirst : ∀ j, j < i →
      ¬((Pal_Read rpalette j).red = (Pal_Read rpalette i).red ∧
        (Pal_Read rpalette j).green = (Pal_Read rpalette i).green ∧
        (Pal_Read rpalette j).blue = (Pal_Read rpalette i).blue)) :
    NearestPaletteColor (Pal_Read rpalette) (Pal_Read rpalette i).red
      (Pal_Read rpalette i).green (Pal_Read rpalette i).blue = i := by
  unfold NearestPaletteColor
  refine NearestPaletteColor_loop_zero (Pal_Read rpalette) _ _ _ i hi ?_ ?_
    256 0 _ 0 (by omega) (by omega) (by omega)
  · rw [distortion_eq_zero_iff]
    exact ⟨rfl, rfl, rfl⟩
  · intro j hj hz
    exact hfirst j hj ((distortion_eq_zero_iff _ _ _ _ _).mp hz)

/-- Closed instantiation of `Pal_Read_nearest_roundtrip`. -/
theorem Pal_Read_nearest_roundtrip_witness :
    ((0 : ℕ) < 256 ∧
      (∀ j, j < 0 →
        ¬((Pal_Read (fun k => k) j).red = (Pal_Read (fun k => k) 0).red ∧
          (Pal_Read (fun k => k) j).green = (Pal_Read (fun k => k) 0).green ∧
          (Pal_Read (fun k => k) j).blue = (Pal_Read (fun k => k) 0).blue))) ∧
    NearestPaletteColor (Pal_Read (fun k => k)) (Pal_Read (fun k => k) 0).red
      (Pal_Read (fun k => k) 0).green (Pal_Read (fun k => k) 0).blue = 0 :=
  ⟨⟨by decide, fun j hj => absurd hj (Nat.not_lt_zero j)⟩,
   Pal_Read_nearest_roundtrip (fun k => k) 0 (by decide)
     (fun j hj => absurd hj (Nat.not_lt_zero j))⟩

/-- Length of a row-major concatenation of `n` rows of constant length. -/
theorem range_flatMap_length {α : Type} (f : ℕ → List α) (L : ℕ)
    (hf : ∀ y, (f y).length = L) (n : ℕ) :
    ((List.range n).flatMap f).length = n * L := by
  induction n with
  | zero => simp
  | succ n ih =>
    rw [List.range_succ, List.flatMap_append, List.length_append, ih]
    simp [hf n]
    ring

/-- Flat offset `y*L + x` into a row-major concatenation of rows of
constant length `L` addresses cell `x` of row `y`. -/
theorem range_flatMap_getElem? {α : Type} (f : ℕ → List α) (L : ℕ)
    (hf : ∀ y, (f y).length = L) :
    ∀ n y x, y < n → x < L →
      ((List.range n).flatMap f)[y * L + x]? = (f y)[x]? := by
  intro n
  induction n with
  | zero =>
    intro y x hy hx
    exact absurd hy (Nat.not_lt_zero y)
  | succ n ih =>
    intro y x hy hx
    rw [List.range_succ, List.flatMap_append, List.getElem?_append,
      range_flatMap_length f L hf n]
    rcases Nat.lt_succ_iff_lt_or_eq.mp hy with hy' | hy'
    · have hix : y * L + x < n * L := by
        have h1 : y * L + x < (y + 1) * L := by
          rw [Nat.succ_mul]
          omega
        have h2 : (y + 1) * L ≤ n * L := Nat.mul_le_mul_right L hy'
        omega
      rw [if_pos hix]
      exact ih y x hy' hx
    · subst hy'
      rw [if_neg (by omega)]
      simp

/-- C1: the generated table has exactly 65536 entries; the byte at flat
offset `y*256 + x` (background index `y`, foreground index `x`) is the
nearest-palette-index resolution of compositing `palette[y]` under
`palette[x]` with the configured style and the alpha byte derived from the
level; and generation is a pure function of its inputs, so two
generations with identical inputs are byte-identical. -/
theorem T_BlendTrans_table_spec (palette : ℕ → RGBA)
    (blendstyle : alphastyle_e) (trans y x : ℕ)
    (hy : y < 256) (hx : x < 256) :
    (T_BlendTrans palette blendstyle trans).length = 65536 ∧
    (T_BlendTrans palette blendstyle trans)[y * 256 + x]? =
      some (NearestPaletteColor palette
        (ASTBlendPixel (palette y) (palette x) blendstyle
          (T_BlendTrans_blendamt trans)).red
        (ASTBlendPixel (palette y) (palette x) blendstyle
          (T_BlendTrans_blendamt trans)).green
        (ASTBlendPixel (palette y) (palette x) blendstyle
          (T_BlendTrans_blendamt trans)).blue) ∧
    T_BlendTrans palette blendstyle trans =
      T_BlendTrans palette blendstyle trans := by
  have hf : ∀ y', ((fun y' => (List.range 256).map fun x' =>
      let result := ASTBlendPixel (palette y') (palette x') blendstyle
        (T_BlendTrans_blendamt trans)
      NearestPaletteColor palette result.red result.green result.blue) y').length =
      256 := by
    intro y'
    simp
  refine ⟨?_, ?_, rfl⟩
  · unfold T_BlendTrans
    rw [range_flatMap_length _ 256 hf 256]
  · unfold T_BlendTrans
    rw [range_flatMap_getElem? _ 256 hf 256 y x hy hx]
    simp [hx]

/-- Closed instantiation of `T_BlendTrans_table_spec`. -/
theorem T_BlendTrans_table_spec_witness :
    ((2 : ℕ) < 256 ∧ (3 : ℕ) < 256) ∧
    ((T_BlendTrans (fun _ => ⟨0, 0, 0, 255⟩) AST_ADD 5).length = 65536 ∧
      (T_BlendTrans (fun _ => ⟨0, 0, 0, 255⟩) AST_ADD 5)[2 * 256 + 3]? =
        some (NearestPaletteColor (fun _ => ⟨0, 0, 0, 255⟩)
          (ASTBlendPixel ((fun _ => (⟨0, 0, 0, 255⟩ : RGBA)) 2)
            ((fun _ => (⟨0, 0, 0, 255⟩ : RGBA)) 3) AST_ADD
            (T_BlendTrans_blendamt 5)).red
          (ASTBlendPixel ((fun _ => (⟨0, 0, 0, 255⟩ : RGBA)) 2)
            ((fun _ => (⟨0, 0, 0, 255⟩ : RGBA)) 3) AST_ADD
            (T_BlendTrans_blendamt 5)).green
          (ASTBlendPixel ((fun _ => (⟨0, 0, 0, 255⟩ : RGBA)) 2)
            ((fun _ => (⟨0, 0, 0, 255⟩ : RGBA)) 3) AST_ADD
            (T_BlendTrans_blendamt 5)).blue) ∧
      T_BlendTrans (fun _ => ⟨0, 0, 0, 255⟩) AST_ADD 5 =
        T_BlendTrans (fun _ => ⟨0, 0, 0, 255⟩) AST_ADD 5) :=
  ⟨⟨by decide, by decide⟩,
   T_BlendTrans_table_spec (fun _ => ⟨0, 0, 0, 255⟩) AST_ADD 5 2 3
     (by decide) (by decide)⟩
